import Mathlib

/-!
A verification development for the LoggingEngine repository.

The Rust sources are shallowly embedded: machine integers (`u64`, `usize`,
`u32`) are modelled as `Nat` (counter overflow at `2 ^ 64` is not reachable in
the runs considered here and cursor arithmetic stays in ranges where
`wrapping_sub` agrees with truncated subtraction), byte buffers as `List Nat`,
fallible Rust functions returning `Result` as `Except String`, and functions
that mutate `&self` through atomics or locks as state-passing functions
returning the result together with the post state.  Sources of nondeterminism
(wall-clock timestamps, UUIDs, thread ids, elapsed-time checks) are passed in
as explicit parameters.  Concurrency is modelled by sequential interleaving:
each embedded operation is one atomic step of the corresponding Rust code.
-/

namespace LoggingEngine

/-! ## ultra-logger/src/buffer.rs -/

namespace Buffer

/-- Embeds `RingBuffer<T>` (buffer.rs).  The `Vec<RwLock<Option<T>>>` of slots
becomes a `List (Option α)`; the cache-padded atomic cursors become `Nat`
fields.  In this sequential model a `try_write`/`try_read` lock acquisition
always succeeds, matching an execution with no concurrent slot access. -/
structure RingBuffer (α : Type) where
  buffer : List (Option α)
  capacity : Nat
  write_pos : Nat
  read_pos : Nat
  mask : Nat
deriving DecidableEq

/-- Embeds `usize::is_power_of_two` from the Rust standard library: `n` is a
power of two iff it is nonzero and clearing the lowest set bit yields zero. -/
def is_power_of_two (n : Nat) : Bool :=
  n != 0 && (n &&& (n - 1)) == 0

/-- The state `RingBuffer::new` builds after its validation checks pass:
`capacity` empty slots, both cursors at zero and `mask = capacity - 1`. -/
def RingBuffer.mkFresh (α : Type) (capacity : Nat) : RingBuffer α :=
  { buffer := List.replicate capacity none
    capacity := capacity
    write_pos := 0
    read_pos := 0
    mask := capacity - 1 }

/-- Embeds `RingBuffer::new` (buffer.rs): rejects capacities that are not a
power of two, rejects zero, and otherwise allocates `capacity` empty slots. -/
def RingBuffer.new (α : Type) (capacity : Nat) : Except String (RingBuffer α) :=
  if !(is_power_of_two capacity) then
    .error "Capacity must be power of 2"
  else if capacity == 0 then
    .error "Capacity must be greater than 0"
  else
    .ok (RingBuffer.mkFresh α capacity)

/-- Embeds `RingBuffer::try_write` (buffer.rs).  Returns the `Result` together
with the post state; the error paths perform no store, so they return the
input state unchanged, exactly as the source returns before mutating. -/
def RingBuffer.try_write (b : RingBuffer α) (item : α) :
    Except String Unit × RingBuffer α :=
  let write_pos := b.write_pos
  let read_pos := b.read_pos
  if write_pos - read_pos ≥ b.capacity then
    (.error "Buffer full", b)
  else
    let index := write_pos &&& b.mask
    match b.buffer[index]? with
    | some none =>
        (.ok (), { b with buffer := b.buffer.set index (some item)
                          write_pos := write_pos + 1 })
    | _ => (.error "Slot occupied", b)

/-- Embeds `RingBuffer::try_read` (buffer.rs). -/
def RingBuffer.try_read (b : RingBuffer α) : Option α × RingBuffer α :=
  let read_pos := b.read_pos
  let write_pos := b.write_pos
  if read_pos == write_pos then
    (none, b)
  else
    let index := read_pos &&& b.mask
    match b.buffer[index]? with
    | some (some item) =>
        (some item, { b with buffer := b.buffer.set index none
                             read_pos := read_pos + 1 })
    | _ => (none, b)

/-- Runs `try_write` once per element of `items`, left to right, stopping at
the first failure.  The boolean records whether every write succeeded. -/
def RingBuffer.writeRun (b : RingBuffer α) (items : List α) :
    Bool × RingBuffer α :=
  match items with
  | [] => (true, b)
  | x :: xs =>
      match RingBuffer.try_write b x with
      | (.ok _, b1) => RingBuffer.writeRun b1 xs
      | (.error _, b1) => (false, b1)

/-- Embeds `MpscRingBuffer<T>` (buffer.rs); same layout as `RingBuffer`. -/
structure MpscRingBuffer (α : Type) where
  buffer : List (Option α)
  capacity : Nat
  write_pos : Nat
  read_pos : Nat
  mask : Nat
deriving DecidableEq

/-- The state `MpscRingBuffer::new` builds after its power-of-two check. -/
def MpscRingBuffer.mkFresh (α : Type) (capacity : Nat) : MpscRingBuffer α :=
  { buffer := List.replicate capacity none
    capacity := capacity
    write_pos := 0
    read_pos := 0
    mask := capacity - 1 }

/-- Embeds `MpscRingBuffer::new` (buffer.rs); unlike `RingBuffer::new` it has
no separate zero check (zero is already rejected as not a power of two). -/
def MpscRingBuffer.new (α : Type) (capacity : Nat) :
    Except String (MpscRingBuffer α) :=
  if !(is_power_of_two capacity) then
    .error "Capacity must be power of 2"
  else
    .ok (MpscRingBuffer.mkFresh α capacity)

/-- Embeds `MpscRingBuffer::try_write` (buffer.rs) as one sequential step.
With no interleaved producer the CAS on `write_pos` succeeds on the first
attempt, and the inner spin loop writes the slot as soon as it is free; in
every state reachable in this development the claimed slot is free, so the
spin completes immediately.  A still-occupied slot (only possible with a
concurrent reader holding the slot lock) is modelled as an error result
standing for the unreachable spin. -/
def MpscRingBuffer.try_write (b : MpscRingBuffer α) (item : α) :
    Except String Unit × MpscRingBuffer α :=
  if b.write_pos - b.read_pos ≥ b.capacity then
    (.error "Buffer full", b)
  else
    let index := b.write_pos &&& b.mask
    match b.buffer[index]? with
    | some none =>
        (.ok (), { b with buffer := b.buffer.set index (some item)
                          write_pos := b.write_pos + 1 })
    | _ => (.error "Slot occupied", b)

/-- Runs `MpscRingBuffer.try_write` once per element, stopping at failure. -/
def MpscRingBuffer.writeRun (b : MpscRingBuffer α) (items : List α) :
    Bool × MpscRingBuffer α :=
  match items with
  | [] => (true, b)
  | x :: xs =>
      match MpscRingBuffer.try_write b x with
      | (.ok _, b1) => MpscRingBuffer.writeRun b1 xs
      | (.error _, b1) => (false, b1)

end Buffer

/-! ## ultra-logger/src/config.rs -/

namespace Config

/-- Embeds `BufferConfig` (config.rs). -/
structure BufferConfig where
  ring_buffer_size : Nat
  batch_size : Nat
  flush_interval_micros : Nat
  max_memory_bytes : Nat
  pre_allocate : Bool
deriving DecidableEq

/-- Embeds `CompressionConfig` (config.rs). -/
structure CompressionConfig where
  enabled : Bool
  algorithm : String
  level : Nat
  min_size_bytes : Nat
deriving DecidableEq

/-- Embeds `PerformanceConfig` (config.rs). -/
structure PerformanceConfig where
  worker_threads : Nat
  lock_free : Bool
  memory_pool_size : Nat
  cpu_affinity : Option (List Nat)
  use_io_uring : Bool
  numa_aware : Bool
deriving DecidableEq

/-- Embeds `LoggerConfig` (config.rs) restricted to the fields `validate`
reads; the `transport`, `outputs`, `metrics` and `tracing` sub-configurations
are never consulted by `validate` and are omitted from the model. -/
structure LoggerConfig where
  level : String
  buffer : BufferConfig
  compression : CompressionConfig
  performance : PerformanceConfig
deriving DecidableEq

/-- Embeds `LoggerConfig::validate` (config.rs lines 367 to 385): the only
checks are that `ring_buffer_size` is a power of two, that `worker_threads`
is nonzero, and that the compression level does not exceed `9`. -/
def LoggerConfig.validate (c : LoggerConfig) : Except String Unit :=
  if !(Buffer.is_power_of_two c.buffer.ring_buffer_size) then
    .error "Ring buffer size must be power of 2"
  else if c.performance.worker_threads == 0 then
    .error "Worker threads must be > 0"
  else if c.compression.level > 9 then
    .error "Compression level must be 1-9"
  else
    .ok ()

end Config

/-! ## ultra-logger/src/compression.rs -/

namespace Compression

/-- Embeds `CompressionType` (compression.rs). -/
inductive CompressionType where
  | none
  | gzip
  | zstd
  | lz4
  | snappy
deriving DecidableEq

/-- Modelled from the spec: the external codec crates wrapped by
compression.rs (`flate2`, `zstd`, `lz4_flex`, `snap`) are not part of this
repository; §4.5 of the specification fixes their contract as byte-to-byte
functions whose round trip is exact.  `compress`/`decompress` model the
underlying primitive on whole buffers, and `round_trip` is that contract. -/
structure ExternalCodec where
  compress : List Nat → List Nat
  decompress : List Nat → List Nat
  round_trip : ∀ x, decompress (compress x) = x

/-- Embeds the `Compressor` trait object (compression.rs): both directions
return `Result<Vec<u8>>`.  The `compression_type` and
`estimated_compression_ratio` accessors carry no data relevant to the claims
and are omitted. -/
structure Compressor where
  compress : List Nat → Except String (List Nat)
  decompress : List Nat → Except String (List Nat)

/-- Embeds `NoCompressor` (compression.rs): both directions copy the input. -/
def NoCompressor : Compressor :=
  { compress := fun data => .ok data
    decompress := fun data => .ok data }

/-- Embeds `GzipCompressor` (compression.rs): a direct wrapper around the
external gzip primitive, no size bookkeeping of its own. -/
def GzipCompressor (prim : ExternalCodec) : Compressor :=
  { compress := fun data => .ok (prim.compress data)
    decompress := fun data => .ok (prim.decompress data) }

/-- Embeds `Lz4Compressor` (compression.rs): a direct wrapper around
`lz4_flex::compress_prepend_size` / `decompress_size_prepended`. -/
def Lz4Compressor (prim : ExternalCodec) : Compressor :=
  { compress := fun data => .ok (prim.compress data)
    decompress := fun data => .ok (prim.decompress data) }

/-- Embeds `SnappyCompressor` (compression.rs): a direct wrapper around the
external snappy frame codec. -/
def SnappyCompressor (prim : ExternalCodec) : Compressor :=
  { compress := fun data => .ok (prim.compress data)
    decompress := fun data => .ok (prim.decompress data) }

/-- Modelled from the spec: `zstd::bulk::decompress(data, capacity)` from the
external `zstd` crate allocates at most `capacity` output bytes and fails when
the decompressed payload does not fit. -/
def zstd_bulk_decompress (prim : ExternalCodec) (data : List Nat)
    (capacity : Nat) : Except String (List Nat) :=
  let out := prim.decompress data
  if out.length ≤ capacity then .ok out
  else .error "Destination buffer is too small"

/-- Embeds `ZstdCompressor` (compression.rs).  `compress` defers to the
external primitive; `decompress` calls `zstd::bulk::decompress` with the
estimate `data.len() * 4` as output capacity, exactly as the source does.
The stored `level` only influences the compression ratio of the external
primitive and is not otherwise observable in the model. -/
def ZstdCompressor (prim : ExternalCodec) (level : Nat) : Compressor :=
  { compress := fun data => .ok (prim.compress data)
    decompress := fun data => zstd_bulk_decompress prim data (data.length * 4) }

/-- A concrete `ExternalCodec` used to instantiate the abstract primitives:
buffers of fewer than 256 zero bytes compress to the two-byte form
`[0, length]`, everything else is stored verbatim behind a `1` tag.  It
satisfies the round-trip contract exactly and, like the real codecs, maps
long zero runs to far fewer than a quarter of their length. -/
def zeroRunCodec : ExternalCodec where
  compress x :=
    if x.length < 256 && x.all (fun b => b == 0) then [0, x.length] else 1 :: x
  decompress y :=
    match y with
    | [0, n] => List.replicate n 0
    | 1 :: rest => rest
    | other => other
  round_trip x := by
    by_cases h : x.length < 256 && x.all (fun b => b == 0)
    · have hz : x = List.replicate x.length 0 := by
        have hall := (Bool.and_eq_true _ _).mp h |>.2
        clear h
        induction x with
        | nil => rfl
        | cons a t ih =>
            simp only [List.all_cons, Bool.and_eq_true, beq_iff_eq] at hall
            simp only [List.length_cons, List.replicate_succ, hall.1]
            exact congrArg _ (ih hall.2)
      simp only [h, if_true]
      by_cases hlen : x.length = 0
      · simp [List.length_eq_zero.mp hlen]
      · conv_rhs => rw [hz]
    · simp [h]

/-- Embeds `BatchCompressor` (compression.rs).  The boxed compressor is passed
to each operation explicitly; the state is the staging buffer and the
configured maximum batch size. -/
structure BatchCompressor where
  buffer : List Nat
  max_batch_size : Nat
deriving DecidableEq

/-- Embeds `BatchCompressor::new` (compression.rs). -/
def BatchCompressor.new (max_batch_size : Nat) : BatchCompressor :=
  { buffer := [], max_batch_size := max_batch_size }

/-- Embeds `BatchCompressor::flush` (compression.rs): an empty buffer yields
an empty payload; otherwise the whole staging buffer is handed to the codec
and cleared.  No size threshold is consulted. -/
def BatchCompressor.flush (comp : Compressor) (bc : BatchCompressor) :
    Except String (List Nat × BatchCompressor) :=
  if bc.buffer.isEmpty then
    .ok ([], bc)
  else
    match comp.compress bc.buffer with
    | .ok compressed => .ok (compressed, { bc with buffer := [] })
    | .error e => .error e

/-- Embeds `BatchCompressor::add_entry` (compression.rs).  When the entry
would overflow `max_batch_size` the current buffer is flushed and returned;
the code then returns without ever appending `data`.  Otherwise `data` plus a
newline separator is appended and nothing is emitted. -/
def BatchCompressor.add_entry (comp : Compressor) (bc : BatchCompressor)
    (data : List Nat) : Except String (Option (List Nat) × BatchCompressor) :=
  if bc.buffer.length + data.length > bc.max_batch_size then
    match BatchCompressor.flush comp bc with
    | .ok (compressed, bc2) => .ok (some compressed, bc2)
    | .error e => .error e
  else
    .ok (none, { bc with buffer := bc.buffer ++ data ++ [10] })

end Compression

/-! ## ultra-logger/src/lib.rs (the flume-based logger that the crate builds) -/

namespace Lib

/-- Embeds `LogLevel` (lib.rs). -/
inductive LogLevel where
  | debug
  | info
  | warn
  | error
deriving DecidableEq

/-- Embeds `LogValue` (lib.rs); `f64` becomes `Float`. -/
inductive LogValue where
  | string (s : String)
  | number (x : Float)
  | bool (b : Bool)
  | integer (n : Int)

/-- Embeds `LogEntry` (lib.rs); the `chrono` timestamp becomes integer
nanoseconds, the field map becomes an association list. -/
structure LogEntry where
  timestamp : Nat
  level : LogLevel
  service : String
  message : String
  fields : List (String × LogValue)
  sequence : Nat

/-- Embeds `LogEntry::new` (lib.rs); the `Utc::now()` stamp is passed in as
the explicit `timestamp` argument. -/
def LogEntry.new (level : LogLevel) (service : String) (message : String)
    (sequence : Nat) (timestamp : Nat) : LogEntry :=
  { timestamp := timestamp
    level := level
    service := service
    message := message
    fields := []
    sequence := sequence }

/-- Embeds `LoggerStats` (lib.rs): five relaxed `AtomicU64` counters. -/
structure LoggerStats where
  messages_logged : Nat
  messages_dropped : Nat
  batches_processed : Nat
  avg_batch_size : Nat
  total_latency_ns : Nat
deriving DecidableEq

/-- Embeds `LoggerStats::new`. -/
def LoggerStats.new : LoggerStats :=
  { messages_logged := 0
    messages_dropped := 0
    batches_processed := 0
    avg_batch_size := 0
    total_latency_ns := 0 }

/-- Embeds `LogBatch::is_full` (lib.rs): full at 64 entries. -/
def batch_is_full (entries : List LogEntry) : Bool :=
  entries.length ≥ 64

/-- Embeds `LogBatch::serialize_batch` (lib.rs) against an abstract,
possibly fallible `simd_json::to_string` passed in as `ser`: each entry is
serialized and terminated with a newline; the first serialization error
aborts the batch. -/
def serialize_batch (ser : LogEntry → Except String String)
    (entries : List LogEntry) : Except String String :=
  entries.foldlM (fun acc e => do
    let json ← ser e
    pure (acc ++ json ++ "\n")) ""

/-- A serializer model on which the abstract `simd_json::to_string` fails for
every entry; it exercises the `Err` arm of `serialize_batch`/`flush_batch`. -/
def serFail : LogEntry → Except String String :=
  fun _ => .error "serialization failed"

/-- The state threaded through `UltraLogger::background_processor` (lib.rs):
the batch currently being filled and the shared stats. -/
structure ProcState where
  batch : List LogEntry
  stats : LoggerStats

/-- The initial processor state: a fresh pooled batch and zeroed stats. -/
def ProcState.init : ProcState :=
  { batch := [], stats := LoggerStats.new }

/-- Embeds `UltraLogger::flush_batch` (lib.rs): an empty batch is skipped;
otherwise a successful serialization bumps `batches_processed` and stores the
batch length into `avg_batch_size`, while a serialization failure adds the
whole batch length onto `messages_dropped`.  In both cases the batch is
cleared (returned to the pool). -/
def flush_batch (ser : LogEntry → Except String String) (s : ProcState) :
    ProcState :=
  if s.batch.length == 0 then s
  else
    match serialize_batch ser s.batch with
    | .ok _ =>
        { batch := []
          stats := { s.stats with
                      batches_processed := s.stats.batches_processed + 1
                      avg_batch_size := s.batch.length } }
    | .error _ =>
        { batch := []
          stats := { s.stats with
                      messages_dropped := s.stats.messages_dropped + s.batch.length } }

/-- One iteration of the `background_processor` receive loop (lib.rs).
`recv e elapsed lat` is the `Ok(Ok(entry))` arm: the entry joins the batch,
the batch is flushed when it is full or the 1 ms flush interval has elapsed
(`elapsed` stands for the wall-clock comparison), and `total_latency_ns` and
`messages_logged` are bumped afterwards regardless of the flush outcome.
`timeout` is the `Err(_)` arm: a nonempty batch is flushed. -/
inductive ProcEvent where
  | recv (e : LogEntry) (elapsed : Bool) (lat : Nat)
  | timeout

/-- Embeds one loop iteration of `UltraLogger::background_processor`. -/
def procStep (ser : LogEntry → Except String String) (s : ProcState)
    (ev : ProcEvent) : ProcState :=
  match ev with
  | .recv e elapsed lat =>
      let s1 : ProcState := { s with batch := s.batch ++ [e] }
      let s2 : ProcState :=
        if batch_is_full s1.batch || elapsed then flush_batch ser s1 else s1
      { s2 with stats := { s2.stats with
                            total_latency_ns := s2.stats.total_latency_ns + lat
                            messages_logged := s2.stats.messages_logged + 1 } }
  | .timeout =>
      if s.batch.length > 0 then flush_batch ser s else s

/-- Embeds a complete `background_processor` run (lib.rs): the receive loop
over `events` followed by the final flush executed when the channel closes. -/
def procRun (ser : LogEntry → Except String String) (events : List ProcEvent) :
    ProcState :=
  let final := events.foldl (procStep ser) ProcState.init
  if final.batch.length > 0 then flush_batch ser final else final

/-- The number of entries the processor received over a run; every entry
submitted through the unbounded flume channel is eventually received, so at
quiescence this is the number of submitted records. -/
def countRecv (events : List ProcEvent) : Nat :=
  events.countP fun ev =>
    match ev with
    | .recv _ _ _ => true
    | .timeout => false

/-- The producer-side state of `UltraLogger` (lib.rs): the service name, the
`sequence` atomic, and the entries pushed into the unbounded channel. -/
structure UltraLogger where
  service : String
  sequence : Nat
  sent : List LogEntry

/-- Embeds the field initialization of `UltraLogger::new` (lib.rs); the
spawned background task is modelled separately by `procRun`. -/
def UltraLogger.new (service : String) : UltraLogger :=
  { service := service, sequence := 0, sent := [] }

/-- Embeds `UltraLogger::log` (lib.rs): `sequence.fetch_add(1, Relaxed)`
returns the previous value, which becomes the sequence of the new entry; the
entry then goes to the unbounded flume channel, whose send succeeds while the
receiver lives; the `Utc::now()` stamp is the explicit `timestamp`. -/
def UltraLogger.log (s : UltraLogger) (level : LogLevel) (message : String)
    (timestamp : Nat) : Except String Unit × UltraLogger :=
  let sequence := s.sequence
  let entry := LogEntry.new level s.service message sequence timestamp
  (.ok (), { s with sequence := s.sequence + 1, sent := s.sent ++ [entry] })

/-- Runs `UltraLogger.log` once per requested call, left to right. -/
def UltraLogger.run (s : UltraLogger)
    (calls : List (LogLevel × String × Nat)) : UltraLogger :=
  match calls with
  | [] => s
  | (level, message, timestamp) :: rest =>
      UltraLogger.run (UltraLogger.log s level message timestamp).2 rest

/-- A closed sample entry used by concrete runs. -/
def sampleEntry (n : Nat) : LogEntry :=
  LogEntry.new LogLevel.info "svc" "msg" n 0

end Lib

/-! ## ultra-logger/src/logger.rs (the ring-buffer logger module) -/

namespace Logger

/-- Embeds `LogLevel` (logger.rs), the extended ten-level set. -/
inductive LogLevel where
  | critical
  | error
  | warn
  | info
  | debug
  | trace
  | market_data
  | trade
  | order
  | risk
deriving DecidableEq

/-- Embeds `LogValue` (logger.rs); `f64` becomes `Float`, `Vec<u8>` a list. -/
inductive LogValue where
  | string (s : String)
  | integer (n : Int)
  | float (x : Float)
  | boolean (b : Bool)
  | bytes (bs : List Nat)
  | null

/-- Embeds `LogEntry` (logger.rs); the UUID becomes a `Nat` tag and the
`DashMap` of fields an association list.  Note this entry type has no
sequence field. -/
structure LogEntry where
  id : Nat
  timestamp_nanos : Nat
  level : LogLevel
  service : String
  message : String
  fields : List (String × LogValue)
  trace_id : Option String
  span_id : Option String
  thread_id : Nat
  location : Option String

/-- Embeds `LogEntry::new` (logger.rs); the UUID, clock and thread id are
passed in explicitly. -/
def LogEntry.new (level : LogLevel) (service : String) (message : String)
    (id : Nat) (timestamp_nanos : Nat) (thread_id : Nat) : LogEntry :=
  { id := id
    timestamp_nanos := timestamp_nanos
    level := level
    service := service
    message := message
    fields := []
    trace_id := none
    span_id := none
    thread_id := thread_id
    location := none }

/-- The counters of `LoggingMetrics` (metrics.rs) touched on the `log` path,
plus `entries_dropped`.  logger.rs calls `increment_logs_processed` and
`increment_logs_queued`, which `metrics.rs` never declares (the module set is
inconsistent); they are modelled as the dedicated counters `logs_processed`
and `logs_queued`. -/
structure LoggingMetricsState where
  entries_logged : Nat
  entries_dropped : Nat
  logs_processed : Nat
  logs_queued : Nat
deriving DecidableEq

/-- Zeroed metrics, as built by `LoggingMetrics::new`. -/
def LoggingMetricsState.new : LoggingMetricsState :=
  { entries_logged := 0, entries_dropped := 0
    logs_processed := 0, logs_queued := 0 }

/-- The state of `UltraLogger` (logger.rs) relevant to submission: the ring
buffer, the entries pushed into the unbounded crossbeam overflow channel
(`log_sender`), and the metrics counters. -/
structure UltraLoggerState where
  buffer : Buffer.RingBuffer LogEntry
  queued : List LogEntry
  metrics : LoggingMetricsState

/-- Embeds `UltraLogger::log` (logger.rs lines 253 to 272).  Fast path: a
successful `try_write` bumps `logs_processed` and returns `Ok`.  Slow path: a
failed `try_write` sends the entry through the unbounded crossbeam channel
(which cannot fail while the receiver held in `_log_receiver` lives), bumps
`logs_queued`, and also returns `Ok`.  Latency recording is time-only and not
modelled. -/
def log (s : UltraLoggerState) (entry : LogEntry) :
    Except String Unit × UltraLoggerState :=
  match Buffer.RingBuffer.try_write s.buffer entry with
  | (.ok _, b1) =>
      (.ok (), { s with buffer := b1
                        metrics := { s.metrics with
                          logs_processed := s.metrics.logs_processed + 1 } })
  | (.error _, _) =>
      (.ok (), { s with queued := s.queued ++ [entry]
                        metrics := { s.metrics with
                          logs_queued := s.metrics.logs_queued + 1 } })

/-- Embeds `UltraLogger::next_sequence` (logger.rs): `fetch_add(1, Relaxed)`
on the `sequence` atomic, returning the previous value. -/
def next_sequence (sequence : Nat) : Nat × Nat :=
  (sequence, sequence + 1)

/-- The values returned by `n` consecutive `next_sequence` calls starting
from the given atomic state. -/
def next_sequence_run (sequence : Nat) : Nat → List Nat
  | 0 => []
  | n + 1 =>
      let (cur, s1) := next_sequence sequence
      cur :: next_sequence_run s1 n

/-- A closed sample entry used by concrete runs. -/
def sampleEntry (n : Nat) : LogEntry :=
  LogEntry.new LogLevel.info "svc" "msg" n 0 0

/-- A concrete logger state whose capacity-one ring buffer has been filled by
one successful `try_write`, leaving the ingest queue full. -/
def fullSample : UltraLoggerState :=
  { buffer := (Buffer.RingBuffer.try_write
                (Buffer.RingBuffer.mkFresh LogEntry 1) (sampleEntry 0)).2
    queued := []
    metrics := LoggingMetricsState.new }

end Logger

/-! ## metrics-collector/src/lib.rs -/

namespace Metrics

/-- Embeds `MetricsConfig` (metrics-collector lib.rs); the two `Duration`
fields become milliseconds. -/
structure MetricsConfig where
  buffer_size : Nat
  flush_interval_ms : Nat
  retention_time_ms : Nat
  high_precision : Bool
  max_concurrent : Nat
deriving DecidableEq

/-- Embeds `MetricsConfig::default`. -/
def MetricsConfig.mkDefault : MetricsConfig :=
  { buffer_size := 10000
    flush_interval_ms := 100
    retention_time_ms := 300000
    high_precision := true
    max_concurrent := 100 }

/-- Embeds `MetricType` (metrics-collector lib.rs); `f64` becomes `Float`
and the timer `Duration` becomes nanoseconds. -/
inductive MetricType where
  | counter (v : Nat)
  | gauge (v : Float)
  | histogram (vs : List Float)
  | timer (duration_ns : Nat)

/-- Embeds `MetricEntry` (metrics-collector lib.rs); the `SystemTime` stamp
becomes a `Nat`. -/
structure MetricEntry where
  name : String
  value : MetricType
  labels : List (String × String)
  timestamp : Nat

/-- Embeds `MetricsCollector` (metrics-collector lib.rs): the `running` flag
and the `Vec<MetricEntry>` buffer behind the `RwLock`s. -/
structure MetricsCollector where
  config : MetricsConfig
  running : Bool
  metrics_buffer : List MetricEntry

/-- Embeds `MetricsCollector::with_config`: not running, empty buffer. -/
def MetricsCollector.with_config (config : MetricsConfig) : MetricsCollector :=
  { config := config, running := false, metrics_buffer := [] }

/-- Embeds `MetricsCollector::start` (sets the flag; the spawned flush task
is modelled separately by `flush_tick`). -/
def MetricsCollector.start (s : MetricsCollector) :
    Except String Unit × MetricsCollector :=
  (.ok (), { s with running := true })

/-- Embeds `MetricsCollector::stop`. -/
def MetricsCollector.stop (s : MetricsCollector) :
    Except String Unit × MetricsCollector :=
  (.ok (), { s with running := false })

/-- One iteration of the background flush task spawned by `start`: while the
collector is running, a nonempty buffer is cleared wholesale. -/
def MetricsCollector.flush_tick (s : MetricsCollector) : MetricsCollector :=
  if s.running then
    if s.metrics_buffer.isEmpty then s else { s with metrics_buffer := [] }
  else s

/-- Embeds `MetricsCollector::record_counter`: unconditionally appends one
entry and returns `Ok`; the `SystemTime::now()` stamp is explicit. -/
def MetricsCollector.record_counter (s : MetricsCollector) (name : String)
    (value : Nat) (labels : List (String × String)) (now : Nat) :
    Except String Unit × MetricsCollector :=
  let entry : MetricEntry :=
    { name := name, value := .counter value, labels := labels, timestamp := now }
  (.ok (), { s with metrics_buffer := s.metrics_buffer ++ [entry] })

/-- Embeds `MetricsCollector::record_gauge`. -/
def MetricsCollector.record_gauge (s : MetricsCollector) (name : String)
    (value : Float) (labels : List (String × String)) (now : Nat) :
    Except String Unit × MetricsCollector :=
  let entry : MetricEntry :=
    { name := name, value := .gauge value, labels := labels, timestamp := now }
  (.ok (), { s with metrics_buffer := s.metrics_buffer ++ [entry] })

/-- Embeds `MetricsCollector::record_histogram`. -/
def MetricsCollector.record_histogram (s : MetricsCollector) (name : String)
    (values : List Float) (labels : List (String × String)) (now : Nat) :
    Except String Unit × MetricsCollector :=
  let entry : MetricEntry :=
    { name := name, value := .histogram values, labels := labels, timestamp := now }
  (.ok (), { s with metrics_buffer := s.metrics_buffer ++ [entry] })

/-- Embeds `MetricsCollector::record_timer`. -/
def MetricsCollector.record_timer (s : MetricsCollector) (name : String)
    (duration_ns : Nat) (labels : List (String × String)) (now : Nat) :
    Except String Unit × MetricsCollector :=
  let entry : MetricEntry :=
    { name := name, value := .timer duration_ns, labels := labels, timestamp := now }
  (.ok (), { s with metrics_buffer := s.metrics_buffer ++ [entry] })

/-- Embeds `MetricsCollector::get_metrics_count`. -/
def MetricsCollector.get_metrics_count (s : MetricsCollector) : Nat :=
  s.metrics_buffer.length

/-- Embeds `MetricsCollector::is_running`. -/
def MetricsCollector.is_running (s : MetricsCollector) : Bool :=
  s.running

/-- One record call of any of the four kinds, for whole-run statements. -/
inductive RecordOp where
  | counter (name : String) (value : Nat) (labels : List (String × String)) (now : Nat)
  | gauge (name : String) (value : Float) (labels : List (String × String)) (now : Nat)
  | histogram (name : String) (values : List Float) (labels : List (String × String)) (now : Nat)
  | timer (name : String) (duration_ns : Nat) (labels : List (String × String)) (now : Nat)

/-- The entry a record call appends. -/
def RecordOp.toEntry : RecordOp → MetricEntry
  | .counter name value labels now =>
      { name := name, value := .counter value, labels := labels, timestamp := now }
  | .gauge name value labels now =>
      { name := name, value := .gauge value, labels := labels, timestamp := now }
  | .histogram name values labels now =>
      { name := name, value := .histogram values, labels := labels, timestamp := now }
  | .timer name duration_ns labels now =>
      { name := name, value := .timer duration_ns, labels := labels, timestamp := now }

/-- Applies one record call to the collector state. -/
def MetricsCollector.applyRecord (s : MetricsCollector) (op : RecordOp) :
    MetricsCollector :=
  match op with
  | .counter name value labels now =>
      (MetricsCollector.record_counter s name value labels now).2
  | .gauge name value labels now =>
      (MetricsCollector.record_gauge s name value labels now).2
  | .histogram name values labels now =>
      (MetricsCollector.record_histogram s name values labels now).2
  | .timer name duration_ns labels now =>
      (MetricsCollector.record_timer s name duration_ns labels now).2

/-- Applies a sequence of record calls, left to right. -/
def MetricsCollector.runRecords (s : MetricsCollector) (ops : List RecordOp) :
    MetricsCollector :=
  ops.foldl MetricsCollector.applyRecord s

end Metrics

/-! ## Arithmetic helpers -/

/-- Masking with `2 ^ k - 1` is the identity below `2 ^ k`; this is the
bitmask indexing invariant of the ring buffers. -/
theorem land_two_pow_sub_one_of_lt {n k : Nat} (h : n < 2 ^ k) :
    n &&& (2 ^ k - 1) = n := by
  apply Nat.eq_of_testBit_eq
  intro i
  rw [Nat.testBit_land, Nat.testBit_two_pow_sub_one]
  by_cases hik : i < k
  · simp [hik]
  · have hfalse : n.testBit i = false := by
      apply Nat.testBit_lt_two_pow
      calc n < 2 ^ k := h
        _ ≤ 2 ^ i := Nat.pow_le_pow_right (by norm_num) (Nat.le_of_not_lt hik)
    simp [hfalse, hik]

/-- Clearing the lowest set bit of a power of two yields zero. -/
theorem two_pow_land_pred (k : Nat) : 2 ^ k &&& (2 ^ k - 1) = 0 := by
  apply Nat.eq_of_testBit_eq
  intro i
  rw [Nat.testBit_land, Nat.testBit_two_pow_sub_one, Nat.zero_testBit]
  by_cases hik : i = k
  · subst hik; simp
  · rw [Nat.testBit_two_pow_of_ne (Ne.symm hik)]
    simp

/-- The bit trick used by `usize::is_power_of_two` agrees with the
mathematical notion of a power of two. -/
theorem is_power_of_two_iff (n : Nat) :
    Buffer.is_power_of_two n = true ↔ ∃ k, n = 2 ^ k := by
  constructor
  · intro h
    rcases (Bool.and_eq_true _ _).mp h with ⟨h0, hand⟩
    have hn0 : n ≠ 0 := by simpa using h0
    have hz : n &&& (n - 1) = 0 := by simpa using hand
    refine ⟨n.log2, ?_⟩
    by_contra hne
    have hle : 2 ^ n.log2 ≤ n := Nat.log2_self_le hn0
    have hlt : n < 2 ^ (n.log2 + 1) := Nat.lt_log2_self
    have hlt2 : n < 2 ^ n.log2 * 2 := by
      rw [Nat.pow_succ] at hlt; exact hlt
    have hgt : 2 ^ n.log2 < n := lt_of_le_of_ne hle fun h => hne h.symm
    have hdiv : n / 2 ^ n.log2 = 1 :=
      Nat.div_eq_of_lt_le (by omega) (by omega)
    have hdiv1 : (n - 1) / 2 ^ n.log2 = 1 :=
      Nat.div_eq_of_lt_le (by omega) (by omega)
    have hb1 : n.testBit n.log2 = true := by
      simp [Nat.testBit_to_div_mod, hdiv]
    have hb2 : (n - 1).testBit n.log2 = true := by
      simp [Nat.testBit_to_div_mod, hdiv1]
    have hbit : (n &&& (n - 1)).testBit n.log2 = true := by
      rw [Nat.testBit_land, hb1, hb2]; rfl
    rw [hz, Nat.zero_testBit] at hbit
    exact Bool.false_ne_true hbit
  · rintro ⟨k, rfl⟩
    have h1 : (2 : Nat) ^ k ≠ 0 := (pow_pos (by norm_num) k).ne'
    simp [Buffer.is_power_of_two, two_pow_land_pred, h1]

/-! ## Ring buffer lemmas (claim C3) -/

/-- A single successful `try_write` onto a partially filled fresh buffer. -/
theorem try_write_step {k : Nat} (c : Nat) (hc : c = 2 ^ k)
    (pre : List Nat) (x : Nat) (hlt : pre.length < c) :
    Buffer.RingBuffer.try_write
      (⟨pre.map some ++ List.replicate (c - pre.length) none,
        c, pre.length, 0, c - 1⟩ : Buffer.RingBuffer Nat) x
    = (Except.ok (),
        ⟨(pre ++ [x]).map some ++ List.replicate (c - (pre.length + 1)) none,
          c, pre.length + 1, 0, c - 1⟩) := by
  have hidx : pre.length &&& (c - 1) = pre.length := by
    subst hc; exact land_two_pow_sub_one_of_lt hlt
  have hget :
      (pre.map some ++ List.replicate (c - pre.length) none)[pre.length]?
        = some (none : Option Nat) := by
    rw [List.getElem?_append_right (by simp)]
    simp [List.getElem?_replicate]
    omega
  have hset :
      (pre.map some ++ List.replicate (c - pre.length) none).set pre.length (some x)
        = (pre ++ [x]).map some ++ List.replicate (c - (pre.length + 1)) none := by
    rw [List.set_append_right _ _ (by simp)]
    have hrep : c - pre.length = (c - (pre.length + 1)) + 1 := by omega
    rw [hrep, List.replicate_succ]
    simp [List.map_append]
  simp only [Buffer.RingBuffer.try_write, Nat.sub_zero]
  rw [if_neg (by omega)]
  simp only [hidx, hget, hset]

/-- Filling the rest of a fresh power-of-two buffer succeeds write by
write and advances the cursor to the total length. -/
theorem writeRun_fill {k : Nat} (c : Nat) (hc : c = 2 ^ k) :
    ∀ (xs pre : List Nat), pre.length + xs.length ≤ c →
      Buffer.RingBuffer.writeRun
        (⟨pre.map some ++ List.replicate (c - pre.length) none,
          c, pre.length, 0, c - 1⟩ : Buffer.RingBuffer Nat) xs
      = (true,
          ⟨(pre ++ xs).map some ++ List.replicate (c - (pre.length + xs.length)) none,
            c, pre.length + xs.length, 0, c - 1⟩) := by
  intro xs
  induction xs with
  | nil =>
      intro pre hlen
      simp [Buffer.RingBuffer.writeRun]
  | cons x xs ih =>
      intro pre hlen
      have hlt : pre.length < c := by
        simp only [List.length_cons] at hlen; omega
      rw [Buffer.RingBuffer.writeRun, try_write_step c hc pre x hlt]
      have hlen2 : (pre.length + 1) + xs.length ≤ c := by
        simp only [List.length_cons] at hlen; omega
      have hrec := ih (pre ++ [x])
        (by simpa using hlen2)
      simp only [List.length_append, List.length_singleton] at hrec
      dsimp only
      rw [hrec]
      have harr : pre.length + 1 + xs.length = pre.length + (xs.length + 1) := by
        omega
      simp only [List.append_assoc, List.singleton_append, List.length_cons, harr]

/-- The MPSC analogue of `try_write_step`: with no interleaved producer the
CAS claims the slot and the write lands immediately. -/
theorem mpsc_try_write_step {k : Nat} (c : Nat) (hc : c = 2 ^ k)
    (pre : List Nat) (x : Nat) (hlt : pre.length < c) :
    Buffer.MpscRingBuffer.try_write
      (⟨pre.map some ++ List.replicate (c - pre.length) none,
        c, pre.length, 0, c - 1⟩ : Buffer.MpscRingBuffer Nat) x
    = (Except.ok (),
        ⟨(pre ++ [x]).map some ++ List.replicate (c - (pre.length + 1)) none,
          c, pre.length + 1, 0, c - 1⟩) := by
  have hidx : pre.length &&& (c - 1) = pre.length := by
    subst hc; exact land_two_pow_sub_one_of_lt hlt
  have hget :
      (pre.map some ++ List.replicate (c - pre.length) none)[pre.length]?
        = some (none : Option Nat) := by
    rw [List.getElem?_append_right (by simp)]
    simp [List.getElem?_replicate]
    omega
  have hset :
      (pre.map some ++ List.replicate (c - pre.length) none).set pre.length (some x)
        = (pre ++ [x]).map some ++ List.replicate (c - (pre.length + 1)) none := by
    rw [List.set_append_right _ _ (by simp)]
    have hrep : c - pre.length = (c - (pre.length + 1)) + 1 := by omega
    rw [hrep, List.replicate_succ]
    simp [List.map_append]
  simp only [Buffer.MpscRingBuffer.try_write, Nat.sub_zero]
  rw [if_neg (by omega)]
  simp only [hidx, hget, hset]

/-- The MPSC analogue of `writeRun_fill`. -/
theorem mpsc_writeRun_fill {k : Nat} (c : Nat) (hc : c = 2 ^ k) :
    ∀ (xs pre : List Nat), pre.length + xs.length ≤ c →
      Buffer.MpscRingBuffer.writeRun
        (⟨pre.map some ++ List.replicate (c - pre.length) none,
          c, pre.length, 0, c - 1⟩ : Buffer.MpscRingBuffer Nat) xs
      = (true,
          ⟨(pre ++ xs).map some ++ List.replicate (c - (pre.length + xs.length)) none,
            c, pre.length + xs.length, 0, c - 1⟩) := by
  intro xs
  induction xs with
  | nil =>
      intro pre hlen
      simp [Buffer.MpscRingBuffer.writeRun]
  | cons x xs ih =>
      intro pre hlen
      have hlt : pre.length < c := by
        simp only [List.length_cons] at hlen; omega
      rw [Buffer.MpscRingBuffer.writeRun, mpsc_try_write_step c hc pre x hlt]
      have hlen2 : (pre.length + 1) + xs.length ≤ c := by
        simp only [List.length_cons] at hlen; omega
      have hrec := ih (pre ++ [x])
        (by simpa using hlen2)
      simp only [List.length_append, List.length_singleton] at hrec
      dsimp only
      rw [hrec]
      have harr : pre.length + 1 + xs.length = pre.length + (xs.length + 1) := by
        omega
      simp only [List.append_assoc, List.singleton_append, List.length_cons, harr]

/-- Claim C3: for every ring buffer created with capacity `c = 2 ^ k` and a
quiesced consumer (no reads), `c` consecutive `try_write` calls all succeed,
and the `(c+1)`-th `try_write` returns the "Buffer full" error immediately,
leaving the buffer contents and both cursors unchanged; the same holds for
the MPSC variant. -/
theorem C3_ring_buffer_capacity (k : Nat) (xs : List Nat) (y : Nat)
    (hlen : xs.length = 2 ^ k) :
    Buffer.RingBuffer.new Nat (2 ^ k)
      = Except.ok (Buffer.RingBuffer.mkFresh Nat (2 ^ k))
    ∧ (Buffer.RingBuffer.writeRun (Buffer.RingBuffer.mkFresh Nat (2 ^ k)) xs).1
        = true
    ∧ Buffer.RingBuffer.try_write
        (Buffer.RingBuffer.writeRun (Buffer.RingBuffer.mkFresh Nat (2 ^ k)) xs).2 y
      = (Except.error "Buffer full",
         (Buffer.RingBuffer.writeRun (Buffer.RingBuffer.mkFresh Nat (2 ^ k)) xs).2)
    ∧ Buffer.MpscRingBuffer.new Nat (2 ^ k)
      = Except.ok (Buffer.MpscRingBuffer.mkFresh Nat (2 ^ k))
    ∧ (Buffer.MpscRingBuffer.writeRun (Buffer.MpscRingBuffer.mkFresh Nat (2 ^ k)) xs).1
        = true
    ∧ Buffer.MpscRingBuffer.try_write
        (Buffer.MpscRingBuffer.writeRun (Buffer.MpscRingBuffer.mkFresh Nat (2 ^ k)) xs).2 y
      = (Except.error "Buffer full",
         (Buffer.MpscRingBuffer.writeRun (Buffer.MpscRingBuffer.mkFresh Nat (2 ^ k)) xs).2) := by
  have hpow : Buffer.is_power_of_two (2 ^ k) = true :=
    (is_power_of_two_iff _).mpr ⟨k, rfl⟩
  have hz : ((2 ^ k : Nat) == 0) = false := by
    simp [(pow_pos (by norm_num : (0:Nat) < 2) k).ne']
  have hfresh : Buffer.RingBuffer.mkFresh Nat (2 ^ k)
      = (⟨([] : List Nat).map some ++ List.replicate (2 ^ k - ([] : List Nat).length) none,
          2 ^ k, ([] : List Nat).length, 0, 2 ^ k - 1⟩ : Buffer.RingBuffer Nat) := by
    simp [Buffer.RingBuffer.mkFresh]
  have hfill := writeRun_fill (2 ^ k) rfl xs [] (by simpa using hlen.le)
  rw [← hfresh] at hfill
  have hmfresh : Buffer.MpscRingBuffer.mkFresh Nat (2 ^ k)
      = (⟨([] : List Nat).map some ++ List.replicate (2 ^ k - ([] : List Nat).length) none,
          2 ^ k, ([] : List Nat).length, 0, 2 ^ k - 1⟩ : Buffer.MpscRingBuffer Nat) := by
    simp [Buffer.MpscRingBuffer.mkFresh]
  have hmfill := mpsc_writeRun_fill (2 ^ k) rfl xs [] (by simpa using hlen.le)
  rw [← hmfresh] at hmfill
  refine ⟨?_, ?_, ?_, ?_, ?_, ?_⟩
  · simp [Buffer.RingBuffer.new, hpow, hz]
  · rw [hfill]
  · rw [hfill]
    simp only [Buffer.RingBuffer.try_write]
    rw [if_pos (by simpa using hlen.ge)]
  · simp [Buffer.MpscRingBuffer.new, hpow]
  · rw [hmfill]
  · rw [hmfill]
    simp only [Buffer.MpscRingBuffer.try_write]
    rw [if_pos (by simpa using hlen.ge)]

/-- Witness for C3 at `k = 1`: the two writes `5, 6` fill a fresh buffer of
capacity `2` and the third write `7` fails with the full error, leaving the
state unchanged. -/
theorem C3_witness :
    ([5, 6] : List Nat).length = 2 ^ 1
    ∧ (Buffer.RingBuffer.new Nat (2 ^ 1)
        = Except.ok (Buffer.RingBuffer.mkFresh Nat (2 ^ 1))
      ∧ (Buffer.RingBuffer.writeRun (Buffer.RingBuffer.mkFresh Nat (2 ^ 1)) [5, 6]).1
          = true
      ∧ Buffer.RingBuffer.try_write
          (Buffer.RingBuffer.writeRun (Buffer.RingBuffer.mkFresh Nat (2 ^ 1)) [5, 6]).2 7
        = (Except.error "Buffer full",
           (Buffer.RingBuffer.writeRun (Buffer.RingBuffer.mkFresh Nat (2 ^ 1)) [5, 6]).2)
      ∧ Buffer.MpscRingBuffer.new Nat (2 ^ 1)
        = Except.ok (Buffer.MpscRingBuffer.mkFresh Nat (2 ^ 1))
      ∧ (Buffer.MpscRingBuffer.writeRun (Buffer.MpscRingBuffer.mkFresh Nat (2 ^ 1)) [5, 6]).1
          = true
      ∧ Buffer.MpscRingBuffer.try_write
          (Buffer.MpscRingBuffer.writeRun (Buffer.MpscRingBuffer.mkFresh Nat (2 ^ 1)) [5, 6]).2 7
        = (Except.error "Buffer full",
           (Buffer.MpscRingBuffer.writeRun (Buffer.MpscRingBuffer.mkFresh Nat (2 ^ 1)) [5, 6]).2)) :=
  ⟨by decide, C3_ring_buffer_capacity 1 [5, 6] 7 (by decide)⟩

/-! ## Configuration validation (claim C5) -/

/-- Counterexample to claim C5 as stated.  First conjunct: a configuration
with `batch_size = 0` (and otherwise unobjectionable values) passes
`LoggerConfig::validate`.  Second conjunct: a compression level of `0`, which
is outside the documented range 1 to 9, also passes.  Third conjunct: a
configuration meeting every constraint named by the claim is still rejected,
because `validate` also requires nonzero `worker_threads`. -/
theorem C5_counterexample :
    Config.LoggerConfig.validate
      { level := "info"
        buffer := { ring_buffer_size := 1024, batch_size := 0
                    flush_interval_micros := 100
                    max_memory_bytes := 104857600, pre_allocate := true }
        compression := { enabled := true, algorithm := "lz4"
                         level := 1, min_size_bytes := 1024 }
        performance := { worker_threads := 8, lock_free := true
                         memory_pool_size := 10485760, cpu_affinity := none
                         use_io_uring := false, numa_aware := false } }
      = Except.ok ()
    ∧ Config.LoggerConfig.validate
      { level := "info"
        buffer := { ring_buffer_size := 1024, batch_size := 1000
                    flush_interval_micros := 100
                    max_memory_bytes := 104857600, pre_allocate := true }
        compression := { enabled := true, algorithm := "lz4"
                         level := 0, min_size_bytes := 1024 }
        performance := { worker_threads := 8, lock_free := true
                         memory_pool_size := 10485760, cpu_affinity := none
                         use_io_uring := false, numa_aware := false } }
      = Except.ok ()
    ∧ Config.LoggerConfig.validate
      { level := "info"
        buffer := { ring_buffer_size := 1024, batch_size := 1000
                    flush_interval_micros := 100
                    max_memory_bytes := 104857600, pre_allocate := true }
        compression := { enabled := true, algorithm := "lz4"
                         level := 1, min_size_bytes := 1024 }
        performance := { worker_threads := 0, lock_free := true
                         memory_pool_size := 10485760, cpu_affinity := none
                         use_io_uring := false, numa_aware := false } }
      = Except.error "Worker threads must be > 0" := by
  refine ⟨rfl, rfl, rfl⟩

/-- Claim C5 (amended): `LoggerConfig::validate` accepts a configuration
exactly when the ring buffer size is a power of two, the worker thread count
is nonzero, and the compression level is at most `9`.  In particular the
batch size is never checked, a compression level of `0` is accepted, and the
worker-thread check is an additional constraint the claim did not mention. -/
theorem C5_validate_characterization (c : Config.LoggerConfig) :
    Config.LoggerConfig.validate c = Except.ok ()
    ↔ ((∃ k, c.buffer.ring_buffer_size = 2 ^ k)
        ∧ c.performance.worker_threads ≠ 0
        ∧ c.compression.level ≤ 9) := by
  constructor
  · intro h
    unfold Config.LoggerConfig.validate at h
    by_cases h1 : Buffer.is_power_of_two c.buffer.ring_buffer_size
    · by_cases h2 : c.performance.worker_threads = 0
      · simp [h1, h2] at h
      · by_cases h3 : c.compression.level > 9
        · simp [h1, h2, h3] at h
        · exact ⟨(is_power_of_two_iff _).mp h1, h2, by omega⟩
    · simp [Bool.not_eq_true] at h1
      simp [h1] at h
  · rintro ⟨⟨k, hk⟩, h2, h3⟩
    have h1 : Buffer.is_power_of_two c.buffer.ring_buffer_size = true :=
      (is_power_of_two_iff _).mpr ⟨k, hk⟩
    unfold Config.LoggerConfig.validate
    simp [h1, h2, Nat.not_lt.mpr h3]

/-! ## Stats accounting of the flume logger (claim C1) -/

/-- `flush_batch` never changes `messages_logged`, only increases
`messages_dropped` and `batches_processed`, and clears the batch. -/
theorem flush_batch_stats (ser : Lib.LogEntry → Except String String)
    (s : Lib.ProcState) :
    (Lib.flush_batch ser s).stats.messages_logged = s.stats.messages_logged
    ∧ s.stats.messages_dropped ≤ (Lib.flush_batch ser s).stats.messages_dropped
    ∧ s.stats.batches_processed ≤ (Lib.flush_batch ser s).stats.batches_processed := by
  unfold Lib.flush_batch
  split
  · exact ⟨rfl, le_refl _, le_refl _⟩
  · split
    · exact ⟨rfl, le_refl _, Nat.le_succ _⟩
    · exact ⟨rfl, Nat.le_add_right _ _, le_refl _⟩

/-- Each `procStep` bumps `messages_logged` by one exactly on a received
entry, and all three counters are monotone across the step. -/
theorem procStep_stats (ser : Lib.LogEntry → Except String String)
    (s : Lib.ProcState) (ev : Lib.ProcEvent) :
    (Lib.procStep ser s ev).stats.messages_logged
      = s.stats.messages_logged
        + (match ev with | .recv _ _ _ => 1 | .timeout => 0)
    ∧ s.stats.messages_dropped ≤ (Lib.procStep ser s ev).stats.messages_dropped
    ∧ s.stats.batches_processed ≤ (Lib.procStep ser s ev).stats.batches_processed := by
  cases ev with
  | recv e elapsed lat =>
      unfold Lib.procStep
      dsimp only
      split
      · have h := flush_batch_stats ser { s with batch := s.batch ++ [e] }
        exact ⟨by rw [h.1], Nat.le_trans h.2.1 (le_refl _),
               Nat.le_trans h.2.2 (le_refl _)⟩
      · exact ⟨rfl, le_refl _, le_refl _⟩
  | timeout =>
      unfold Lib.procStep
      dsimp only
      split
      · have h := flush_batch_stats ser s
        exact ⟨by rw [h.1]; omega, h.2.1, h.2.2⟩
      · exact ⟨by omega, le_refl _, le_refl _⟩

/-- Folding the processor over a run adds exactly one `messages_logged` per
received entry. -/
theorem foldl_procStep_logged (ser : Lib.LogEntry → Except String String) :
    ∀ (events : List Lib.ProcEvent) (s : Lib.ProcState),
      (events.foldl (Lib.procStep ser) s).stats.messages_logged
        = s.stats.messages_logged + Lib.countRecv events := by
  intro events
  induction events with
  | nil => intro s; simp [Lib.countRecv]
  | cons ev evs ih =>
      intro s
      rw [List.foldl_cons, ih, (procStep_stats ser s ev).1]
      cases ev <;> simp [Lib.countRecv, List.countP_cons] <;> omega

/-- Counterexample to claim C1 as stated: in a run where the single received
entry lands in a batch whose serialization fails, the entry is counted both
into `messages_logged` (which counts received entries unconditionally) and
into `messages_dropped`, so one submitted record is accounted for twice and
`records_submitted = records_logged + records_dropped` fails. -/
theorem C1_counterexample :
    Lib.countRecv [Lib.ProcEvent.recv (Lib.sampleEntry 0) true 0] = 1
    ∧ (Lib.procRun Lib.serFail
        [Lib.ProcEvent.recv (Lib.sampleEntry 0) true 0]).stats.messages_logged = 1
    ∧ (Lib.procRun Lib.serFail
        [Lib.ProcEvent.recv (Lib.sampleEntry 0) true 0]).stats.messages_dropped = 1
    ∧ ¬ (Lib.countRecv [Lib.ProcEvent.recv (Lib.sampleEntry 0) true 0]
          = (Lib.procRun Lib.serFail
              [Lib.ProcEvent.recv (Lib.sampleEntry 0) true 0]).stats.messages_logged
            + (Lib.procRun Lib.serFail
                [Lib.ProcEvent.recv (Lib.sampleEntry 0) true 0]).stats.messages_dropped) := by
  refine ⟨rfl, rfl, rfl, by decide⟩

/-- Claim C1 (amended): after the processor has received and finally flushed
an entire run (steady state or shutdown), `messages_logged` equals the number
of submitted (received) records; `messages_dropped` additionally counts, a
second time, every record of a batch whose serialization failed, so
`records_submitted = records_logged + records_dropped` holds exactly in runs
with no serialization failure; and the counters `messages_logged`,
`messages_dropped` and `batches_processed` are monotone at every step. -/
theorem C1_stats_accounting :
    (∀ (ser : Lib.LogEntry → Except String String) (events : List Lib.ProcEvent),
      (Lib.procRun ser events).stats.messages_logged = Lib.countRecv events)
    ∧ (∀ (ser : Lib.LogEntry → Except String String) (events : List Lib.ProcEvent),
      (Lib.procRun ser events).stats.messages_dropped = 0 →
        Lib.countRecv events
          = (Lib.procRun ser events).stats.messages_logged
            + (Lib.procRun ser events).stats.messages_dropped)
    ∧ (∀ (ser : Lib.LogEntry → Except String String) (s : Lib.ProcState)
        (ev : Lib.ProcEvent),
        s.stats.messages_logged ≤ (Lib.procStep ser s ev).stats.messages_logged
        ∧ s.stats.messages_dropped ≤ (Lib.procStep ser s ev).stats.messages_dropped
        ∧ s.stats.batches_processed ≤ (Lib.procStep ser s ev).stats.batches_processed) := by
  have hlogged : ∀ (ser : Lib.LogEntry → Except String String)
      (events : List Lib.ProcEvent),
      (Lib.procRun ser events).stats.messages_logged = Lib.countRecv events := by
    intro ser events
    unfold Lib.procRun
    dsimp only
    split
    · rw [(flush_batch_stats ser _).1, foldl_procStep_logged]
      simp [Lib.ProcState.init, Lib.LoggerStats.new]
    · rw [foldl_procStep_logged]
      simp [Lib.ProcState.init, Lib.LoggerStats.new]
  refine ⟨hlogged, ?_, ?_⟩
  · intro ser events hzero
    rw [hlogged, hzero]
    omega
  · intro ser s ev
    have h := procStep_stats ser s ev
    exact ⟨by rw [h.1]; cases ev <;> omega, h.2.1, h.2.2⟩

/-- Witness for C1: the second conjunct of `C1_stats_accounting` has a
hypothesis; on a one-entry run with an always-successful serializer no record
drops, and the accounting identity holds with `1 = 1 + 0`. -/
theorem C1_witness :
    (Lib.procRun (fun _ => Except.ok "x")
        [Lib.ProcEvent.recv (Lib.sampleEntry 0) true 0]).stats.messages_dropped = 0
    ∧ Lib.countRecv [Lib.ProcEvent.recv (Lib.sampleEntry 0) true 0]
        = (Lib.procRun (fun _ => Except.ok "x")
            [Lib.ProcEvent.recv (Lib.sampleEntry 0) true 0]).stats.messages_logged
          + (Lib.procRun (fun _ => Except.ok "x")
              [Lib.ProcEvent.recv (Lib.sampleEntry 0) true 0]).stats.messages_dropped :=
  ⟨rfl, C1_stats_accounting.2.1 (fun _ => Except.ok "x")
    [Lib.ProcEvent.recv (Lib.sampleEntry 0) true 0] rfl⟩

/-! ## Sequence number assignment (claim C4) -/

/-- Sequences of the entries sent by a run of `UltraLogger::log` form the
contiguous interval starting at the initial atomic value. -/
theorem run_sent_sequences (calls : List (Lib.LogLevel × String × Nat)) :
    ∀ s : Lib.UltraLogger,
      (Lib.UltraLogger.run s calls).sent.map Lib.LogEntry.sequence
        = s.sent.map Lib.LogEntry.sequence ++ List.range' s.sequence calls.length := by
  induction calls with
  | nil => intro s; simp [Lib.UltraLogger.run]
  | cons call rest ih =>
      intro s
      obtain ⟨level, message, timestamp⟩ := call
      rw [Lib.UltraLogger.run, ih]
      simp [Lib.UltraLogger.log, Lib.LogEntry.new, List.range'_succ]

/-- Claim C4: every submission through `UltraLogger::log` (lib.rs) assigns
the entry the pre-increment value of the `sequence` atomic, so over any run
from a fresh logger the assigned sequence numbers are exactly
`0, 1, ..., n-1`: strictly increasing and gap-free from zero.  The
`next_sequence` counter of logger.rs (the same fetch-add pattern) yields the
same values. -/
theorem C4_sequence_assignment (service : String)
    (calls : List (Lib.LogLevel × String × Nat)) :
    ((Lib.UltraLogger.run (Lib.UltraLogger.new service) calls).sent.map
        Lib.LogEntry.sequence)
      = List.range calls.length
    ∧ List.Pairwise (· < ·)
        ((Lib.UltraLogger.run (Lib.UltraLogger.new service) calls).sent.map
          Lib.LogEntry.sequence)
    ∧ (∀ n, Logger.next_sequence_run 0 n = List.range n) := by
  have hrange : ∀ (s n : Nat), Logger.next_sequence_run s n = List.range' s n := by
    intro s n
    induction n generalizing s with
    | zero => rfl
    | succ m ih =>
        rw [Logger.next_sequence_run, List.range'_succ]
        simp [Logger.next_sequence, ih]
  have hmain :
      ((Lib.UltraLogger.run (Lib.UltraLogger.new service) calls).sent.map
          Lib.LogEntry.sequence)
        = List.range calls.length := by
    rw [run_sent_sequences]
    simp [Lib.UltraLogger.new, List.range_eq_range']
  refine ⟨hmain, ?_, ?_⟩
  · rw [hmain]; exact List.pairwise_lt_range _
  · intro n; rw [hrange, List.range_eq_range']

/-! ## Submission with a full ingest queue (claim C2) -/

/-- Counterexample to claim C2 as stated: on a logger whose capacity-one ring
buffer is full, `log` returns `Ok` (no drop indication), leaves
`entries_dropped` at zero, and instead forwards the entry onto the unbounded
overflow channel, bumping `logs_queued` to one. -/
theorem C2_counterexample :
    (Logger.log Logger.fullSample (Logger.sampleEntry 1)).1 = Except.ok ()
    ∧ (Logger.log Logger.fullSample (Logger.sampleEntry 1)).2.metrics.entries_dropped = 0
    ∧ (Logger.log Logger.fullSample (Logger.sampleEntry 1)).2.queued
        = [Logger.sampleEntry 1]
    ∧ (Logger.log Logger.fullSample (Logger.sampleEntry 1)).2.metrics.logs_queued = 1 := by
  refine ⟨rfl, rfl, rfl, rfl⟩

/-- Claim C2 (amended): whenever the ring buffer is full
(`write_pos - read_pos ≥ capacity`), `UltraLogger::log` (logger.rs) does not
drop the entry: it appends it to the unbounded crossbeam overflow channel,
increments `logs_queued` (never `entries_dropped`, which is part of the
unchanged remainder of the state), and returns `Ok`; the producer never
blocks because both the failed `try_write` and the unbounded send return
immediately. -/
theorem C2_full_queue_behavior (s : Logger.UltraLoggerState)
    (e : Logger.LogEntry)
    (h : s.buffer.capacity ≤ s.buffer.write_pos - s.buffer.read_pos) :
    Logger.log s e
      = (Except.ok (),
         { s with queued := s.queued ++ [e]
                  metrics := { s.metrics with
                    logs_queued := s.metrics.logs_queued + 1 } }) := by
  have htw : Buffer.RingBuffer.try_write s.buffer e
      = (Except.error "Buffer full", s.buffer) := by
    simp only [Buffer.RingBuffer.try_write]
    rw [if_pos h]
  simp only [Logger.log, htw]

/-- Witness for C2 at the concrete full logger state. -/
theorem C2_witness :
    Logger.fullSample.buffer.capacity
      ≤ Logger.fullSample.buffer.write_pos - Logger.fullSample.buffer.read_pos
    ∧ Logger.log Logger.fullSample (Logger.sampleEntry 1)
      = (Except.ok (),
         { Logger.fullSample with
            queued := Logger.fullSample.queued ++ [Logger.sampleEntry 1]
            metrics := { Logger.fullSample.metrics with
              logs_queued := Logger.fullSample.metrics.logs_queued + 1 } }) :=
  ⟨by decide, C2_full_queue_behavior Logger.fullSample (Logger.sampleEntry 1) (by decide)⟩

/-! ## Compression round trip (claim C6) -/

/-- Claim C6 fails on the code: `ZstdCompressor::decompress` caps the output
buffer at four times the compressed length, so any input that compresses by
more than a factor of four cannot be recovered.  With the exact round-trip
primitive `zeroRunCodec` standing for the external zstd codec, one hundred
zero bytes compress to two bytes, and decompression fails with the
buffer-too-small error even though the primitive itself round-trips the
input exactly. -/
theorem C6_zstd_round_trip_failure :
    Except.bind
        ((Compression.ZstdCompressor Compression.zeroRunCodec 3).compress
          (List.replicate 100 0))
        (Compression.ZstdCompressor Compression.zeroRunCodec 3).decompress
      = Except.error "Destination buffer is too small"
    ∧ Compression.zeroRunCodec.decompress
        (Compression.zeroRunCodec.compress (List.replicate 100 0))
      = List.replicate 100 0 :=
  ⟨rfl, Compression.zeroRunCodec.round_trip _⟩

/-! ## Minimum compression size (claim C7) -/

/-- Counterexample to claim C7 as stated: a two-byte staged batch — far below
the configured `min_size_bytes` of `1024` — is still handed to the codec by
`BatchCompressor::flush`, and the emitted payload is the compressed form, not
the raw bytes. -/
theorem C7_counterexample :
    Compression.BatchCompressor.add_entry
        (Compression.ZstdCompressor Compression.zeroRunCodec 3)
        (Compression.BatchCompressor.new 1024) [1]
      = Except.ok (none, { buffer := [1, 10], max_batch_size := 1024 })
    ∧ ([1, 10] : List Nat).length < 1024
    ∧ Compression.BatchCompressor.flush
        (Compression.ZstdCompressor Compression.zeroRunCodec 3)
        { buffer := [1, 10], max_batch_size := 1024 }
      = Except.ok ([1, 1, 10], { buffer := [], max_batch_size := 1024 })
    ∧ ([1, 1, 10] : List Nat) ≠ [1, 10] := by
  refine ⟨rfl, by decide, rfl, by decide⟩

/-- Claim C7 (amended): `BatchCompressor::flush` applies the configured codec
to every nonempty staged buffer; `min_size_bytes` is parsed into
`CompressionConfig` but never consulted, so the result is the codec output
even when the buffer is smaller than any such threshold. -/
theorem C7_flush_ignores_min_size (comp : Compression.Compressor)
    (bc : Compression.BatchCompressor) (min_size : Nat)
    (h1 : bc.buffer ≠ []) (h2 : bc.buffer.length < min_size) :
    Compression.BatchCompressor.flush comp bc
      = (comp.compress bc.buffer).map fun out => (out, { bc with buffer := [] }) := by
  unfold Compression.BatchCompressor.flush
  rw [if_neg (by simpa using h1)]
  cases hc : comp.compress bc.buffer <;> simp [Except.map]

/-- Witness for C7 with the modelled zstd codec and the default threshold. -/
theorem C7_witness :
    (([1, 10] : List Nat) ≠ [])
    ∧ ([1, 10] : List Nat).length < 1024
    ∧ Compression.BatchCompressor.flush
        (Compression.ZstdCompressor Compression.zeroRunCodec 3)
        { buffer := [1, 10], max_batch_size := 1024 }
      = (((Compression.ZstdCompressor Compression.zeroRunCodec 3).compress
            ([1, 10] : List Nat)).map
          fun out =>
            (out, { (⟨[1, 10], 1024⟩ : Compression.BatchCompressor) with buffer := [] })) :=
  ⟨by decide, by decide,
    C7_flush_ignores_min_size (Compression.ZstdCompressor Compression.zeroRunCodec 3)
      ⟨[1, 10], 1024⟩ 1024 (by decide) (by decide)⟩

/-! ## Batch record conservation (claim C8) -/

/-- Claim C8 fails on the code: `BatchCompressor::add_entry` with a full
buffer flushes and emits the staged bytes but silently discards the entry it
was given.  Concretely, with `max_batch_size = 4`, the entry `[1, 2]` is
staged; adding `[3, 4, 5]` overflows, emits the staged batch `[1, 2, 10]`,
and returns a state whose buffer is empty — the bytes `3, 4, 5` appear in no
emitted batch and in no state, and `BatchCompressor` has no drop counter to
record the loss. -/
theorem C8_add_entry_discards_record :
    Compression.BatchCompressor.add_entry Compression.NoCompressor
        (Compression.BatchCompressor.new 4) [1, 2]
      = Except.ok (none, { buffer := [1, 2, 10], max_batch_size := 4 })
    ∧ Compression.BatchCompressor.add_entry Compression.NoCompressor
        { buffer := [1, 2, 10], max_batch_size := 4 } [3, 4, 5]
      = Except.ok (some [1, 2, 10], { buffer := [], max_batch_size := 4 })
    ∧ (3 ∉ ([1, 2, 10] : List Nat))
    ∧ Compression.BatchCompressor.flush Compression.NoCompressor
        { buffer := [], max_batch_size := 4 }
      = Except.ok ([], { buffer := [], max_batch_size := 4 }) := by
  refine ⟨rfl, rfl, by decide, rfl⟩

/-! ## Metrics collector buffer (claims C9 and C10) -/

/-- Every record call appends exactly its entry and changes nothing else. -/
theorem applyRecord_buffer (s : Metrics.MetricsCollector)
    (op : Metrics.RecordOp) :
    (Metrics.MetricsCollector.applyRecord s op).metrics_buffer
      = s.metrics_buffer ++ [op.toEntry]
    ∧ (Metrics.MetricsCollector.applyRecord s op).config = s.config
    ∧ (Metrics.MetricsCollector.applyRecord s op).running = s.running := by
  cases op <;> exact ⟨rfl, rfl, rfl⟩

/-- A run of record calls appends all its entries in order. -/
theorem runRecords_buffer (ops : List Metrics.RecordOp) :
    ∀ s : Metrics.MetricsCollector,
      (Metrics.MetricsCollector.runRecords s ops).metrics_buffer
        = s.metrics_buffer ++ ops.map Metrics.RecordOp.toEntry := by
  induction ops with
  | nil => intro s; simp [Metrics.MetricsCollector.runRecords]
  | cons op rest ih =>
      intro s
      show (Metrics.MetricsCollector.runRecords
              (Metrics.MetricsCollector.applyRecord s op) rest).metrics_buffer = _
      rw [ih, (applyRecord_buffer s op).1]
      simp

/-- Counterexample to claim C9 as stated: with the capacity knob
(`buffer_size`) set to one, two `record_counter` calls leave two entries in
the in-memory buffer — the configured bound is exceeded, nothing is evicted,
and no overflow counter exists in `MetricsCollector` to increment. -/
theorem C9_counterexample :
    Metrics.MetricsCollector.get_metrics_count
        (Metrics.MetricsCollector.record_counter
          ((Metrics.MetricsCollector.record_counter
              (Metrics.MetricsCollector.with_config
                ⟨1, 100, 300000, true, 100⟩) "a" 1 [] 0).2) "b" 1 [] 0).2
      = 2
    ∧ (Metrics.MetricsCollector.record_counter
        ((Metrics.MetricsCollector.record_counter
            (Metrics.MetricsCollector.with_config
              ⟨1, 100, 300000, true, 100⟩) "a" 1 [] 0).2) "b" 1 [] 0).2.config.buffer_size
      = 1
    ∧ ¬ (Metrics.MetricsCollector.get_metrics_count
          (Metrics.MetricsCollector.record_counter
            ((Metrics.MetricsCollector.record_counter
                (Metrics.MetricsCollector.with_config
                  ⟨1, 100, 300000, true, 100⟩) "a" 1 [] 0).2) "b" 1 [] 0).2
          ≤ (Metrics.MetricsCollector.record_counter
              ((Metrics.MetricsCollector.record_counter
                  (Metrics.MetricsCollector.with_config
                    ⟨1, 100, 300000, true, 100⟩) "a" 1 [] 0).2) "b" 1 [] 0).2.config.buffer_size) := by
  refine ⟨rfl, rfl, by decide⟩

/-- Claim C9 (amended): the record calls of `MetricsCollector` enforce no
capacity bound at all — a run of `n` record calls grows the in-memory buffer
by exactly `n` entries, appended in order, with no FIFO eviction and no
overflow counting; the only removal is the wholesale clear performed by the
background flush task. -/
theorem C9_buffer_unbounded (s : Metrics.MetricsCollector)
    (ops : List Metrics.RecordOp) :
    (Metrics.MetricsCollector.runRecords s ops).metrics_buffer
      = s.metrics_buffer ++ ops.map Metrics.RecordOp.toEntry
    ∧ Metrics.MetricsCollector.get_metrics_count
        (Metrics.MetricsCollector.runRecords s ops)
      = Metrics.MetricsCollector.get_metrics_count s + ops.length := by
  refine ⟨runRecords_buffer ops s, ?_⟩
  simp [Metrics.MetricsCollector.get_metrics_count, runRecords_buffer ops s]

/-- Claim C10: each of the four record calls returns `Ok` and appends exactly
one entry — `get_metrics_count` grows by one per call — on every collector
state, in particular regardless of the `running` flag, which the calls leave
untouched. -/
theorem C10_record_appends_one (s : Metrics.MetricsCollector) (name : String)
    (v : Nat) (g : Float) (vs : List Float) (d : Nat)
    (labels : List (String × String)) (now : Nat) :
    ((Metrics.MetricsCollector.record_counter s name v labels now).1 = Except.ok ()
      ∧ Metrics.MetricsCollector.get_metrics_count
          (Metrics.MetricsCollector.record_counter s name v labels now).2
        = Metrics.MetricsCollector.get_metrics_count s + 1)
    ∧ ((Metrics.MetricsCollector.record_gauge s name g labels now).1 = Except.ok ()
      ∧ Metrics.MetricsCollector.get_metrics_count
          (Metrics.MetricsCollector.record_gauge s name g labels now).2
        = Metrics.MetricsCollector.get_metrics_count s + 1)
    ∧ ((Metrics.MetricsCollector.record_histogram s name vs labels now).1 = Except.ok ()
      ∧ Metrics.MetricsCollector.get_metrics_count
          (Metrics.MetricsCollector.record_histogram s name vs labels now).2
        = Metrics.MetricsCollector.get_metrics_count s + 1)
    ∧ ((Metrics.MetricsCollector.record_timer s name d labels now).1 = Except.ok ()
      ∧ Metrics.MetricsCollector.get_metrics_count
          (Metrics.MetricsCollector.record_timer s name d labels now).2
        = Metrics.MetricsCollector.get_metrics_count s + 1)
    ∧ Metrics.MetricsCollector.is_running
        (Metrics.MetricsCollector.record_counter s name v labels now).2
      = Metrics.MetricsCollector.is_running s := by
  refine ⟨⟨rfl, ?_⟩, ⟨rfl, ?_⟩, ⟨rfl, ?_⟩, ⟨rfl, ?_⟩, rfl⟩ <;>
    simp [Metrics.MetricsCollector.record_counter,
      Metrics.MetricsCollector.record_gauge,
      Metrics.MetricsCollector.record_histogram,
      Metrics.MetricsCollector.record_timer,
      Metrics.MetricsCollector.get_metrics_count]

end LoggingEngine
